import Mathlib

/-!
Shallow embedding of the consensus-critical core of the Axon execution engine:
the transaction model (`protocol/src/types/transaction.rs`), the block executor
(`core/executor/src/lib.rs`) and the GetCell precompile
(`core/executor/src/precompiles/get_cell.rs`), together with theorems checking
the natural-language specification against the embedded code.

Machine integers are modelled as `Nat` with explicit `% 2^w` (or explicit
bound checks) wherever the Rust code truncates, saturates, checks or panics.
Byte strings are `List Nat`. External collaborators (keccak hashing, secp256k1
recovery, the EVM interpreter, the receipts trie, the system-contract gateway,
the pluggable fee allocator) are universally quantified model parameters.
-/

namespace Axon

/-- Byte strings (each entry is one byte). -/
abbrev Bytes := List Nat

/-- 20-byte account addresses, kept as byte strings. -/
abbrev Addr := List Nat

/-- 32-byte hashes, kept as byte strings. -/
abbrev H256 := List Nat

/-- Modulus of the 64-bit machine integers (`u64` / `U64`). -/
def U64_MOD : Nat := 2 ^ 64

/-- Modulus of the 256-bit integers (`U256`). -/
def U256_MOD : Nat := 2 ^ 256

/-- `U256::max_value()`. -/
def u256Max : Nat := U256_MOD - 1

/-- `U64::low_u64`: the low 64 bits of a value; the identity on every value a
Rust `U64`/`u64` can hold. -/
def lowU64 (n : Nat) : Nat := n % U64_MOD

/-- `U256::checked_mul`: `some` of the product when it fits 256 bits. -/
def checkedMul256 (a b : Nat) : Option Nat :=
  if a * b < U256_MOD then some (a * b) else none

/-- `U256::checked_add`: `some` of the sum when it fits 256 bits. -/
def checkedAdd256 (a b : Nat) : Option Nat :=
  if a + b < U256_MOD then some (a + b) else none

/-- Fuel-driven worker for `beBytes` (structural recursion on the fuel, so
that the kernel can evaluate it; `n` itself is always enough fuel). -/
def beBytesAux : Nat → Nat → List Nat
  | 0, _ => []
  | _, 0 => []
  | fuel + 1, n + 1 => beBytesAux fuel ((n + 1) / 256) ++ [(n + 1) % 256]

/-- Minimal big-endian byte representation of a natural number (`[]` for 0),
as used by the rlp crate for unsigned integers and length headers. -/
def beBytes (n : Nat) : List Nat := beBytesAux n n

/-- RLP length header for a payload of `len` bytes with base `offset`
(0x80 for strings, 0xc0 for lists). -/
def rlpLenHeader (len offset : Nat) : List Nat :=
  if len ≤ 55 then [offset + len]
  else (offset + 55 + (beBytes len).length) :: beBytes len

/-- RLP encoding of a byte string. -/
def rlpStr (b : List Nat) : List Nat :=
  if b.length = 1 ∧ b.headD 0 < 0x80 then b else rlpLenHeader b.length 0x80 ++ b

/-- RLP encoding of a list item whose concatenated item payload is `payload`. -/
def rlpListPayload (payload : List Nat) : List Nat :=
  rlpLenHeader payload.length 0xc0 ++ payload

/-- RLP encoding of an unsigned integer (minimal big-endian byte string). -/
def rlpUint (n : Nat) : List Nat := rlpStr (beBytes n)

/-- `u64::to_be_bytes`: the eight big-endian bytes of a 64-bit value. -/
def u64ToBeBytes (x : Nat) : List Nat :=
  [x / 2 ^ 56 % 256, x / 2 ^ 48 % 256, x / 2 ^ 40 % 256, x / 2 ^ 32 % 256,
   x / 2 ^ 24 % 256, x / 2 ^ 16 % 256, x / 2 ^ 8 % 256, x % 256]

/-- `RLP_NULL`: keccak256 of the RLP encoding of the empty string, the
canonical empty-trie root constant. -/
def RLP_NULL : H256 :=
  [0x56, 0xe8, 0x1f, 0x17, 0x1b, 0xcc, 0x55, 0xa6, 0xff, 0x83, 0x45, 0xe6,
   0x92, 0xc0, 0xf8, 0x6e, 0x5b, 0x48, 0xe0, 0x1b, 0x99, 0x6c, 0xad, 0xc0,
   0x01, 0x62, 0x2f, 0xb5, 0xe3, 0x63, 0xb4, 0x21]

/-- `TransactionAction` from the ethereum crate: call a contract or create one. -/
inductive TransactionAction where
  | Call (addr : Addr)
  | Create
deriving DecidableEq, Repr

/-- One access-list entry: an address plus pre-declared storage keys. -/
structure AccessListItem where
  address : Addr
  storage_keys : List H256
deriving DecidableEq, Repr

/-- `LegacyTransaction` (type-0 transaction fields). -/
structure LegacyTransaction where
  nonce : Nat
  gas_price : Nat
  gas_limit : Nat
  action : TransactionAction
  value : Nat
  data : Bytes
deriving DecidableEq, Repr

/-- `Eip2930Transaction` (type-1 transaction fields). -/
structure Eip2930Transaction where
  nonce : Nat
  gas_price : Nat
  gas_limit : Nat
  action : TransactionAction
  value : Nat
  data : Bytes
  access_list : List AccessListItem
deriving DecidableEq, Repr

/-- `Eip1559Transaction` (type-2 transaction fields). -/
structure Eip1559Transaction where
  nonce : Nat
  max_priority_fee_per_gas : Nat
  gas_price : Nat
  gas_limit : Nat
  action : TransactionAction
  value : Nat
  data : Bytes
  access_list : List AccessListItem
deriving DecidableEq, Repr

/-- `UnsignedTransaction`: the closed three-variant transaction union. -/
inductive UnsignedTransaction where
  | Legacy (tx : LegacyTransaction)
  | Eip2930 (tx : Eip2930Transaction)
  | Eip1559 (tx : Eip1559Transaction)
deriving DecidableEq, Repr

namespace UnsignedTransaction

/-- `UnsignedTransaction::type_`: the variant discriminant as a `u64`. -/
def type_ : UnsignedTransaction → Nat
  | .Legacy _ => 0x00
  | .Eip2930 _ => 0x01
  | .Eip1559 _ => 0x02

/-- `UnsignedTransaction::as_u8`. The Legacy arm of the Rust source is
`unreachable!()`, a panic, modelled as `none`. -/
def as_u8 : UnsignedTransaction → Option Nat
  | .Legacy _ => none
  | .Eip2930 _ => some 1
  | .Eip1559 _ => some 2

/-- `UnsignedTransaction::gas_price`: the effective price per variant; the
Eip1559 variant takes the max of `gas_price` and `max_priority_fee_per_gas`. -/
def gas_price : UnsignedTransaction → Nat
  | .Legacy tx => tx.gas_price
  | .Eip2930 tx => tx.gas_price
  | .Eip1559 tx => max tx.gas_price tx.max_priority_fee_per_gas

/-- `UnsignedTransaction::gas_limit`. -/
def gas_limit : UnsignedTransaction → Nat
  | .Legacy tx => tx.gas_limit
  | .Eip2930 tx => tx.gas_limit
  | .Eip1559 tx => tx.gas_limit

/-- `UnsignedTransaction::value`. -/
def value : UnsignedTransaction → Nat
  | .Legacy tx => tx.value
  | .Eip2930 tx => tx.value
  | .Eip1559 tx => tx.value

/-- `UnsignedTransaction::nonce`. -/
def nonce : UnsignedTransaction → Nat
  | .Legacy tx => tx.nonce
  | .Eip2930 tx => tx.nonce
  | .Eip1559 tx => tx.nonce

/-- `UnsignedTransaction::action`. -/
def action : UnsignedTransaction → TransactionAction
  | .Legacy tx => tx.action
  | .Eip2930 tx => tx.action
  | .Eip1559 tx => tx.action

/-- `UnsignedTransaction::data`. -/
def data : UnsignedTransaction → Bytes
  | .Legacy tx => tx.data
  | .Eip2930 tx => tx.data
  | .Eip1559 tx => tx.data

/-- `UnsignedTransaction::access_list` (empty for Legacy). -/
def access_list : UnsignedTransaction → List AccessListItem
  | .Legacy _ => []
  | .Eip2930 tx => tx.access_list
  | .Eip1559 tx => tx.access_list

/-- `UnsignedTransaction::get_legacy`. -/
def get_legacy : UnsignedTransaction → Option LegacyTransaction
  | .Legacy tx => some tx
  | _ => none

end UnsignedTransaction

/-- The typed errors of the transaction model (`TypesError`), restricted to the
variants reachable from the embedded functions. -/
inductive TypesError where
  | PrepayGasIsTooLarge
  | TxHashMismatch (origin : H256) (calculated : H256)
  | Unsigned
  | InvalidSignatureRType
  | DecodeInteroperationSigR
  | Crypto
deriving DecidableEq, Repr

/-- `UnsignedTransaction::may_cost`: prepay cost as
`checked_mul` of the low 64 bits of gas price and gas limit (as U256), then
`checked_add` of the value, saturating the sum with `unwrap_or_else(max)`. -/
def may_cost (tx : UnsignedTransaction) : Except TypesError Nat :=
  match checkedMul256 (lowU64 tx.gas_price) (lowU64 tx.gas_limit) with
  | some res => .ok ((checkedAdd256 res tx.value).getD u256Max)
  | none => .error .PrepayGasIsTooLarge

/-- `SignatureComponents`: r and s byte strings plus the recovery indicator. -/
structure SignatureComponents where
  r : Bytes
  s : Bytes
  standard_v : Nat
deriving DecidableEq, Repr

namespace SignatureComponents

/-- `SignatureComponents::len`: `r.len() + s.len() + 1`. -/
def len (sc : SignatureComponents) : Nat := sc.r.length + sc.s.length + 1

/-- `SignatureComponents::as_bytes`: `r || s || [standard_v]`. -/
def as_bytes (sc : SignatureComponents) : Bytes := sc.r ++ sc.s ++ [sc.standard_v]

/-- `SignatureComponents::is_eth_sig`: length equals the 65-byte secp256k1 size. -/
def is_eth_sig (sc : SignatureComponents) : Bool := sc.len = 65

end SignatureComponents

/-- `UnverifiedTransaction`: unsigned payload, optional signature, optional
chain id, and the cached hash field. -/
structure UnverifiedTransaction where
  unsigned : UnsignedTransaction
  signature : Option SignatureComponents
  chain_id : Option Nat
  hash : H256
deriving DecidableEq, Repr

/-- `CellDepWithPubKey`: the interoperation payload r[1..] decodes to; only its
`pub_key` field is consumed by the embedded code. -/
structure CellDepWithPubKey where
  pub_key : Bytes
deriving DecidableEq, Repr

/-- The external cryptographic and codec collaborators of the transaction
model, kept abstract as model parameters:
`digest` is `Hasher::digest` (keccak-256);
`encodeTx` models `UnsignedTransaction::encode(chain_id, signature)`
(modelled from the spec: the rlp `Encodable` impl is not under `src/`; the
spec requires a pure deterministic byte encoding depending only on the three
arguments);
`encodeLegacyReduced` models `LegacyTransaction::rlp_encode(s, None, None)`,
the reduced pre-EIP-155 signing encoding (modelled from the spec, same reason);
`recoverRaw` is `secp256k1_recover` followed by `serialize_uncompressed`
(65 bytes), with `none` for a recovery failure;
`decodeCellDep` is `rlp::decode::<CellDepWithPubKey>`, with `none` for a
decode failure. -/
structure CryptoModel where
  digest : Bytes → H256
  encodeTx : UnsignedTransaction → Option Nat → Option SignatureComponents → Bytes
  encodeLegacyReduced : LegacyTransaction → Bytes
  recoverRaw : H256 → Bytes → Option Bytes
  decodeCellDep : Bytes → Option CellDepWithPubKey

namespace UnverifiedTransaction

/-- `UnverifiedTransaction::get_hash`: digest of
`unsigned.encode(chain_id, signature)`. -/
def get_hash (cm : CryptoModel) (utx : UnverifiedTransaction) : H256 :=
  cm.digest (cm.encodeTx utx.unsigned utx.chain_id utx.signature)

/-- `UnverifiedTransaction::calc_hash`: overwrite the cached hash field with
the recomputed hash. -/
def calc_hash (cm : CryptoModel) (utx : UnverifiedTransaction) : UnverifiedTransaction :=
  { utx with hash := utx.get_hash cm }

/-- `UnverifiedTransaction::check_hash`: recompute and fail with
`TxHashMismatch` carrying the claimed and computed hash on divergence. -/
def check_hash (cm : CryptoModel) (utx : UnverifiedTransaction) : Except TypesError Unit :=
  if utx.hash ≠ utx.get_hash cm then
    .error (.TxHashMismatch utx.hash (utx.get_hash cm))
  else .ok ()

/-- `UnverifiedTransaction::signature_hash(with_chain_id)`: for legacy
transactions without chain id, digest the reduced encoding omitting signature
and chain-id fields; otherwise digest `encode(chain_id, None)`. -/
def signature_hash (cm : CryptoModel) (utx : UnverifiedTransaction)
    (with_chain_id : Bool) : H256 :=
  if with_chain_id = false then
    match utx.unsigned.get_legacy with
    | some legacy_tx => cm.digest (cm.encodeLegacyReduced legacy_tx)
    | none => cm.digest (cm.encodeTx utx.unsigned utx.chain_id none)
  else cm.digest (cm.encodeTx utx.unsigned utx.chain_id none)

end UnverifiedTransaction

/-- `public_to_address`: the last 20 bytes of the digest of the 64-byte
public key. -/
def public_to_address (cm : CryptoModel) (pub : Bytes) : Addr :=
  (cm.digest pub).drop 12

/-- `Public::zero()`: the 64-byte all-zero public key. -/
def publicZero : Bytes := List.replicate 64 0

/-- `SignatureComponents::extract_interoperation_tx_sender`: when `r[0] == 0`,
rlp-decode the remainder of `r` as an embedded public-key payload and return
the digest of that key converted to an address (modelled from the spec: the
`From<H256> for H160` conversion is not under `src/`, the spec says
`hash(embedded key)[12:]`); for any other first byte fail with
`InvalidSignatureRType`. Indexing an empty `r` is a Rust panic, modelled as
the outer `none`. -/
def extract_interoperation_tx_sender (cm : CryptoModel)
    (sc : SignatureComponents) : Option (Except TypesError Addr) :=
  match sc.r with
  | [] => none
  | b :: rest =>
    if b = 0 then
      match cm.decodeCellDep rest with
      | some cdp => some (.ok ((cm.digest cdp.pub_key).drop 12))
      | none => some (.error .DecodeInteroperationSigR)
    else some (.error .InvalidSignatureRType)

/-- `SignedTransaction`: verified transaction, recovered sender, optional
public key. -/
structure SignedTransaction where
  transaction : UnverifiedTransaction
  sender : Addr
  public : Option Bytes
deriving DecidableEq, Repr

namespace SignedTransaction

/-- `SignedTransaction::from_unverified`: fail with `Unsigned` when there is
no signature; for a 65-byte signature recover the public key over
`signature_hash(true)` and derive the sender with `public_to_address`; for any
other length take the interoperation scheme. The outer `none` is the panic of
indexing an empty `r`. -/
def from_unverified (cm : CryptoModel) (utx : UnverifiedTransaction) :
    Option (Except TypesError SignedTransaction) :=
  match utx.signature with
  | none => some (.error .Unsigned)
  | some sig =>
    let hash := utx.signature_hash cm true
    if sig.is_eth_sig then
      match cm.recoverRaw hash sig.as_bytes with
      | none => some (.error .Crypto)
      | some ser =>
        let pub := (ser.drop 1).take 64
        some (.ok { transaction := utx.calc_hash cm,
                    sender := public_to_address cm pub,
                    public := some pub })
    else
      match extract_interoperation_tx_sender cm sig with
      | none => none
      | some (.error e) => some (.error e)
      | some (.ok sender) =>
        some (.ok { transaction := utx.calc_hash cm,
                    sender := sender,
                    public := some publicZero })

/-- `SignedTransaction::type_`. -/
def type_ (tx : SignedTransaction) : Nat := tx.transaction.unsigned.type_

end SignedTransaction

/-- `ExitSucceed` from the evm crate. -/
inductive ExitSucceed where
  | Stopped
  | Returned
  | Suicided
deriving DecidableEq, Repr

/-- `ExitReason` from the evm crate (error payloads collapsed: the embedded
code only distinguishes the four variants and the success case). -/
inductive ExitReason where
  | Succeed (s : ExitSucceed)
  | Error
  | Revert
  | Fatal
deriving DecidableEq, Repr

/-- `ExitReason::is_succeed`. -/
def ExitReason.is_succeed : ExitReason → Bool
  | .Succeed _ => true
  | _ => false

/-- `Log` from the evm crate: emitting address, topics, data. -/
structure Log where
  address : Addr
  topics : List H256
  data : Bytes
deriving DecidableEq, Repr

/-- RLP encoding of one `Log`, the 3-field list `[address, topics, data]`
produced by the evm crate's `Encodable` impl. -/
def encodeLog (l : Log) : Bytes :=
  rlpListPayload (rlpStr l.address ++ rlpListPayload ((l.topics.map rlpStr).flatten)
    ++ rlpStr l.data)

/-- `TxResp`: the per-transaction result record. -/
structure TxResp where
  exit_reason : ExitReason
  ret : Bytes
  gas_used : Nat
  remain_gas : Nat
  fee_cost : Nat
  logs : List Log
  code_address : Option Addr
  removed : Bool
deriving DecidableEq, Repr

/-- `SignedTransaction::encode_receipt`: the 4-field legacy receipt list
`rlp([status, cumulativeGasUsed, logsBloom, logs])`, with the last big-endian
byte of the type discriminant prepended for type 1 and 2 transactions. -/
def SignedTransaction.encode_receipt (tx : SignedTransaction) (r : TxResp)
    (logs_bloom : Bytes) : Bytes :=
  let status : Nat := if r.exit_reason.is_succeed then 1 else 0
  let used_gas := r.gas_used
  let legacy_receipt :=
    rlpListPayload (rlpUint status ++ rlpUint used_gas ++ rlpStr logs_bloom
      ++ rlpListPayload ((r.logs.map encodeLog).flatten))
  let x := tx.type_
  if x = 0x01 ∨ x = 0x02 then (u64ToBeBytes x).drop 7 ++ legacy_receipt
  else legacy_receipt

/-- An account as seen through the adapter: nonce and balance (both U256). -/
structure Account where
  nonce : Nat
  balance : Nat
deriving DecidableEq, Repr

/-- The adapter-visible execution state: the account map, the current gas
price and origin, the per-transaction log buffer, and the block number. -/
structure AdapterState where
  accounts : Addr → Account
  gasPrice : Nat
  origin : Addr
  logs : List Log
  blockNumber : Nat

/-- `adapter.save_account(address, account)`. -/
def saveAccount (st : AdapterState) (a : Addr) (acct : Account) : AdapterState :=
  { st with accounts := fun x => if x = a then acct else st.accounts x }

/-- `FeeInlet`: one (address, amount) fee credit line. -/
structure FeeInlet where
  address : Addr
  amount : Nat
deriving DecidableEq, Repr

/-- `ValidatorExtend`, opaque to the executor: only handed to the allocator. -/
abbrev ValidatorExtend := List Nat

/-- Observable events of one `exec` run, recorded in order. -/
inductive Event where
  | beforeHook
  | afterHook
  | commit
  | feeAllocate (blockNumber fee : Nat) (proposer : Addr)
      (validators : List ValidatorExtend)
  | feeCredit (address : Addr) (amount : Nat)
deriving DecidableEq, Repr

/-- The outcome the EVM interpreter (an external collaborator) reports for one
transaction: exit reason, return data, remaining and used gas, and the state
diff `deconstruct`/`apply` installs on success. -/
structure EvmOutcome where
  exit : ExitReason
  ret : Bytes
  remainedGas : Nat
  usedGas : Nat
  diff : AdapterState → AdapterState

/-- The external collaborators of `exec`, kept abstract as model parameters:
`dispatch` is the system-contract gateway (modelled from the spec:
`system_contract_dispatch` is not under `src/`; an absent result means fall
through to the EVM); `run` is the EVM interpreter invoked by `evm_exec`;
`beforeHook`/`afterHook` are the system-contract block hooks (modelled from
the spec, not under `src/`); `allocator` is the pluggable `FeeAllocate`
policy; `commitRoot` is the root `adapter.commit()` returns; `receiptsRoot`
is `TrieMerkle::from_receipts(..).root_hash()`; `bloomOf` is `logs_bloom`;
`codeAddr` is `code_address(sender, nonce)`, the legacy deterministic
created-contract address (modelled from the spec, not under `src/`). -/
structure ExecEnv where
  dispatch : AdapterState → SignedTransaction → Option (TxResp × AdapterState)
  run : AdapterState → SignedTransaction → EvmOutcome
  beforeHook : AdapterState → AdapterState
  afterHook : AdapterState → AdapterState
  allocator : Nat → Nat → Addr → List ValidatorExtend → List FeeInlet
  commitRoot : AdapterState → H256
  receiptsRoot : List Bytes → H256
  bloomOf : List Log → Bytes
  codeAddr : Addr → Nat → Addr

/-- `AxonExecutor::evm_exec`: deduct the prepay gas with saturating
subtraction, run the EVM, apply its diff on success only, set the sender nonce
to the pre-transaction nonce plus one unconditionally, refund the remaining
gas with checked-then-saturated arithmetic, and assemble the `TxResp`. -/
def evm_exec (env : ExecEnv) (st : AdapterState) (tx : SignedTransaction) :
    TxResp × AdapterState :=
  let sender := tx.sender
  let tx_gas_price := st.gasPrice
  let gas_lim := tx.transaction.unsigned.gas_limit
  let prepay_gas := tx_gas_price * gas_lim
  let account := st.accounts sender
  let old_nonce := account.nonce
  let st1 := saveAccount st sender { account with balance := account.balance - prepay_gas }
  let out := env.run st1 tx
  let code_addr :=
    if tx.transaction.unsigned.action = .Create ∧ out.exit.is_succeed then
      some (env.codeAddr sender old_nonce)
    else none
  let st2 := if out.exit.is_succeed then out.diff st1 else st1
  let account2 := st2.accounts sender
  let account3 := { account2 with nonce := old_nonce + 1 }
  let account4 :=
    if out.remainedGas ≠ 0 then
      let remain_gas := (checkedMul256 out.remainedGas tx_gas_price).getD u256Max
      { account3 with balance := (checkedAdd256 account3.balance remain_gas).getD u256Max }
    else account3
  let st3 := saveAccount st2 sender account4
  (⟨out.exit, out.ret, out.usedGas, out.remainedGas,
    (checkedMul256 tx_gas_price out.usedGas).getD u256Max, [], code_addr, false⟩, st3)

/-- The per-transaction loop accumulator of `exec`: adapter state, running
block gas (u64), running fee (U256), results, encoded receipts. -/
structure LoopAcc where
  st : AdapterState
  gas : Nat
  fee : Nat
  resps : List TxResp
  receipts : List Bytes

/-- One iteration of the transaction loop of `exec`: set gas price and origin,
dispatch to a system contract or to `evm_exec`, pull the adapter's log buffer,
accumulate gas (wrapping u64 addition) and fee (checked addition saturated to
`U256::max_value()`), and encode the receipt. -/
def execTxStep (env : ExecEnv) (acc : LoopAcc) (tx : SignedTransaction) : LoopAcc :=
  let st_a := { acc.st with
                gasPrice := tx.transaction.unsigned.gas_price
                origin := tx.sender }
  let (r0, st_b) :=
    match env.dispatch st_a tx with
    | some pr => pr
    | none => evm_exec env st_a tx
  let r1 := { r0 with logs := st_b.logs }
  let st_c := { st_b with logs := [] }
  let gas' := (acc.gas + r1.gas_used) % U64_MOD
  let fee' := (checkedAdd256 acc.fee r1.fee_cost).getD u256Max
  let bloom := env.bloomOf r1.logs
  let receipt := tx.encode_receipt r1 bloom
  ⟨st_c, gas', fee', acc.resps ++ [r1], acc.receipts ++ [receipt]⟩

/-- The whole transaction loop of `exec`, after the before-block hook. -/
def execLoop (env : ExecEnv) (st0 : AdapterState) (txs : List SignedTransaction) :
    LoopAcc :=
  txs.foldl (execTxStep env) ⟨env.beforeHook st0, 0, 0, [], []⟩

/-- The fee-credit loop of `exec`: for every credit with nonzero amount, load
the target account, add the amount to its balance with the plain `U256`
addition `+=` (which panics on overflow, modelled as `none`), and save it;
zero-amount credits leave the account untouched. -/
def applyCredits : List FeeInlet → AdapterState → Option (AdapterState × List Event)
  | [], st => some (st, [])
  | c :: rest, st =>
    if c.amount = 0 then applyCredits rest st
    else
      let account := st.accounts c.address
      match checkedAdd256 account.balance c.amount with
      | none => none
      | some b =>
        match applyCredits rest (saveAccount st c.address { account with balance := b }) with
        | none => none
        | some (st', evs) => some (st', Event.feeCredit c.address c.amount :: evs)

/-- `ExecResp`: the block-level aggregate result. -/
structure ExecResp where
  state_root : H256
  receipt_root : H256
  gas_used : Nat
  tx_resp : List TxResp

/-- `AxonExecutor::exec`: before-block hook, transaction loop, fee allocation
(skipped for block number zero), after-block hook, single commit, receipts
root (`RLP_NULL` for an empty receipt list). `none` is the panic of a fee
credit overflowing a balance. The event list records hook invocations, the
allocator call with its arguments, fee credits, and the commit, in order. -/
def exec (env : ExecEnv) (st0 : AdapterState) (txs : List SignedTransaction)
    (validators : List ValidatorExtend) : Option (ExecResp × AdapterState × List Event) :=
  let block_number := st0.blockNumber
  let acc := execLoop env st0 txs
  let feeStage : Option (AdapterState × List Event) :=
    if block_number = 0 then some (acc.st, [])
    else
      let alloc := env.allocator block_number acc.fee acc.st.origin validators
      match applyCredits alloc acc.st with
      | none => none
      | some (st', evs) =>
        some (st', Event.feeAllocate block_number acc.fee acc.st.origin validators :: evs)
  match feeStage with
  | none => none
  | some (stF, feeEvs) =>
    let stA := env.afterHook stF
    let new_state_root := env.commitRoot stA
    let receipt_root := if acc.receipts.isEmpty then RLP_NULL else env.receiptsRoot acc.receipts
    some (⟨new_state_root, receipt_root, acc.gas, acc.resps⟩, stA,
          [Event.beforeHook] ++ feeEvs ++ [Event.afterHook, Event.commit])

/-- `GetCell::MIN_GAS`. -/
def GetCell_MIN_GAS : Nat := 15

/-- `GetCell::gas_cost`: `(input.len() + 31) / 32 * 3 + MIN_GAS`. -/
def GetCell_gas_cost (input : Bytes) : Nat :=
  (input.length + 31) / 32 * 3 + GetCell_MIN_GAS

/-- The failure of a precompile. Modelled from the spec: the `err!` macro is
not under `src/`; the spec calls it a gas-exhaustion failure. -/
inductive PrecompileFailure where
  | OutOfGas
deriving DecidableEq, Repr

/-- `PrecompileOutput`: exit status and output bytes. -/
structure PrecompileOutput where
  exit_status : ExitSucceed
  output : Bytes
deriving DecidableEq, Repr

/-- `GetCell::exec_fn`: fail when a supplied gas limit is below the computed
cost, otherwise return the input unchanged together with the computed cost. -/
def GetCell_exec_fn (input : Bytes) (gas_limit : Option Nat) :
    Except PrecompileFailure (PrecompileOutput × Nat) :=
  let gas := GetCell_gas_cost input
  match gas_limit with
  | some limit => if gas > limit then .error .OutOfGas else .ok (⟨.Returned, input⟩, gas)
  | none => .ok (⟨.Returned, input⟩, gas)

/-! Model-validation fixture: the Eip1559 determinism fixture of the repo's
`test_receipt` test, reproduced byte-for-byte by the embedded receipt
encoder. -/

/-- The all-default Eip1559 creation transaction of the determinism fixture. -/
def fixtureEip1559 : Eip1559Transaction :=
  { nonce := 0, max_priority_fee_per_gas := 0, gas_price := 0, gas_limit := 0,
    action := TransactionAction.Create, value := 0, data := [], access_list := [] }

/-- The fixture's unverified transaction (no signature, no chain id). -/
def fixtureUtx : UnverifiedTransaction :=
  { unsigned := UnsignedTransaction.Eip1559 fixtureEip1559,
    signature := none, chain_id := none, hash := [] }

/-- The fixture's signed transaction with a zero sender. -/
def fixtureTx : SignedTransaction :=
  { transaction := fixtureUtx, sender := List.replicate 20 0, public := none }

/-- The fixture's single log with empty topics and data. -/
def fixtureLog : Log := { address := List.replicate 20 0, topics := [], data := [] }

/-- The fixture's per-transaction result: success (stopped), gas used 10. -/
def fixtureResp : TxResp :=
  { exit_reason := .Succeed .Stopped, ret := [], gas_used := 10, remain_gas := 0,
    fee_cost := 0, logs := [fixtureLog], code_address := none, removed := false }

/-- The logs bloom the repo's fixture computes for `fixtureLog`. -/
def fixtureBloom : Bytes :=
  [0, 0, 0, 0, 0, 0, 0, 0, 0, 128, 0, 0, 0, 0, 0, 0, 0, 0, 0, 0, 0, 0, 0, 0,
   0, 0, 0, 0, 0, 0, 0, 0, 0, 0, 0, 0, 0, 0, 0, 0, 0, 0, 0, 0, 0, 0, 0, 2,
   0, 0, 0, 0, 0, 0, 0, 0, 0, 0, 0, 0, 0, 0, 0, 0, 0, 0, 0, 0, 0, 0, 0, 0,
   0, 0, 0, 0, 0, 0, 0, 0, 0, 0, 0, 0, 0, 0, 0, 0, 0, 0, 0, 0, 0, 0, 0, 0,
   0, 0, 0, 0, 0, 0, 0, 0, 0, 0, 0, 0, 0, 0, 0, 0, 0, 0, 0, 0, 0, 0, 0, 0,
   0, 0, 0, 0, 0, 0, 0, 0, 0, 0, 0, 0, 0, 0, 0, 0, 0, 0, 0, 0, 0, 0, 0, 1,
   0, 0, 0, 0, 0, 0, 0, 0, 0, 0, 0, 0, 0, 0, 0, 0, 0, 0, 0, 0, 0, 0, 0, 0,
   0, 0, 0, 0, 0, 0, 0, 0, 0, 0, 0, 0, 0, 0, 0, 0, 0, 0, 0, 0, 0, 0, 0, 0,
   0, 0, 0, 0, 0, 0, 0, 0, 0, 0, 0, 0, 0, 0, 0, 0, 0, 0, 0, 0, 0, 0, 0, 0,
   0, 0, 0, 0, 0, 0, 0, 0, 0, 0, 0, 0, 0, 0, 0, 0, 0, 0, 0, 0, 0, 0, 0, 0,
   0, 0, 0, 0, 0, 0, 0, 0, 0, 0, 0, 0, 0, 0, 0, 0]

set_option maxRecDepth 40000 in
/-- The reference receipt byte sequence asserted by the repo's `test_receipt`
test: the embedded encoder reproduces it byte-for-byte (type byte 0x02,
status 1, gas 10, the bloom, one log). -/
theorem encode_receipt_fixture :
    fixtureTx.encode_receipt fixtureResp fixtureBloom =
      [2, 249, 1, 30, 1, 10, 185, 1, 0] ++ fixtureBloom ++
      [216, 215, 148, 0, 0, 0, 0, 0, 0, 0, 0, 0, 0, 0, 0, 0, 0, 0, 0, 0, 0,
       0, 0, 192, 128] := by decide

/-- C1: `encode_receipt` produces the RLP list of exactly the 4 fields
(status, cumulative gas used, logs bloom, log list) in order, with status 1
exactly for a success exit; for type discriminant 1 or 2 the single raw type
byte (0x01 or 0x02, not list-encoded) is concatenated in front, and for any
other discriminant the bare list is returned. -/
theorem encode_receipt_spec (tx : SignedTransaction) (r : TxResp) (logs_bloom : Bytes) :
    tx.encode_receipt r logs_bloom =
      (if tx.type_ = 0x01 ∨ tx.type_ = 0x02 then [tx.type_] else []) ++
      rlpListPayload (rlpUint (if r.exit_reason.is_succeed then 1 else 0)
        ++ rlpUint r.gas_used ++ rlpStr logs_bloom
        ++ rlpListPayload ((r.logs.map encodeLog).flatten)) := by
  unfold SignedTransaction.encode_receipt
  by_cases h : tx.type_ = 0x01 ∨ tx.type_ = 0x02
  · rcases h with h | h <;>
      simp [h, u64ToBeBytes]
  · simp [h]

/-- C2: `evm_exec` leaves the sender's account nonce at exactly its
pre-transaction value plus one, for every EVM outcome (success, revert, or
gas exhaustion) and every state diff the EVM produces. -/
theorem evm_exec_increments_nonce (env : ExecEnv) (st : AdapterState)
    (tx : SignedTransaction) :
    ((evm_exec env st tx).2.accounts tx.sender).nonce
      = (st.accounts tx.sender).nonce + 1 := by
  simp [evm_exec, saveAccount, apply_ite Account.nonce]

/-- C5: `may_cost` returns the prepay product saturating-added to the value
whenever the low-64-bit multiplication fits 256 bits, and would fail with
`PrepayGasIsTooLarge` otherwise; the product of two 64-bit values always fits,
so the success branch always applies. -/
theorem may_cost_spec (tx : UnsignedTransaction) :
    may_cost tx =
      (if lowU64 tx.gas_price * lowU64 tx.gas_limit < U256_MOD then
        Except.ok (min (lowU64 tx.gas_price * lowU64 tx.gas_limit + tx.value) u256Max)
      else Except.error TypesError.PrepayGasIsTooLarge) := by
  have hp : lowU64 tx.gas_price < U64_MOD := Nat.mod_lt _ (by norm_num [U64_MOD])
  have hl : lowU64 tx.gas_limit < U64_MOD := Nat.mod_lt _ (by norm_num [U64_MOD])
  have hm : lowU64 tx.gas_price * lowU64 tx.gas_limit < U256_MOD := by
    calc lowU64 tx.gas_price * lowU64 tx.gas_limit
        < U64_MOD * U64_MOD := Nat.mul_lt_mul_of_lt_of_lt hp hl
      _ ≤ U256_MOD := by norm_num [U64_MOD, U256_MOD]
  rw [if_pos hm]
  unfold may_cost checkedMul256 checkedAdd256
  rw [if_pos hm]
  simp only [Except.ok.injEq]
  split
  · next hadd =>
    rw [Option.getD_some]
    have h2 : lowU64 tx.gas_price * lowU64 tx.gas_limit + tx.value ≤ u256Max := by
      unfold u256Max; omega
    exact (Nat.min_eq_left h2).symm
  · next hadd =>
    rw [Option.getD_none]
    have h2 : u256Max ≤ lowU64 tx.gas_price * lowU64 tx.gas_limit + tx.value := by
      have := Nat.le_of_not_lt hadd
      unfold u256Max; omega
    exact (Nat.min_eq_right h2).symm

/-- C8 counterexample: `as_u8` on a Legacy transaction is `unreachable!()`, a
panic, not the discriminant 0 the claim states. -/
theorem as_u8_legacy_not_zero :
    UnsignedTransaction.as_u8
      (.Legacy { nonce := 0, gas_price := 0, gas_limit := 0,
                 action := TransactionAction.Create, value := 0, data := [] })
      ≠ some 0 := by decide

/-- C8 (amended): `type_` returns the discriminant 0, 1, 2 for Legacy,
Eip2930, Eip1559; `as_u8` returns 1 and 2 for Eip2930 and Eip1559 and panics
(`unreachable!()`, modelled as `none`) on Legacy. -/
theorem type_discriminant_spec (tx : UnsignedTransaction) :
    tx.type_ = (match tx with
      | .Legacy _ => 0 | .Eip2930 _ => 1 | .Eip1559 _ => 2) ∧
    tx.as_u8 = (match tx with
      | .Legacy _ => none | .Eip2930 _ => some 1 | .Eip1559 _ => some 2) := by
  cases tx <;> simp [UnsignedTransaction.type_, UnsignedTransaction.as_u8]

/-- C9: the GetCell precompile's gas cost is the minimum gas 15 plus
3 times the ceiling of the input length over 32; a supplied gas limit below
that cost fails with the gas-exhaustion failure, otherwise execution succeeds
returning the input unchanged together with the computed cost. -/
theorem get_cell_spec (input : Bytes) (gas_limit : Option Nat) :
    GetCell_gas_cost input = GetCell_MIN_GAS + 3 * ((input.length + 31) / 32) ∧
    GetCell_exec_fn input gas_limit =
      (match gas_limit with
       | some limit =>
         if limit < GetCell_gas_cost input then Except.error PrecompileFailure.OutOfGas
         else Except.ok (⟨ExitSucceed.Returned, input⟩, GetCell_gas_cost input)
       | none => Except.ok (⟨ExitSucceed.Returned, input⟩, GetCell_gas_cost input)) := by
  refine ⟨by unfold GetCell_gas_cost; ring, ?_⟩
  cases gas_limit <;> rfl

/-- C6: `check_hash` succeeds exactly when the stored hash equals the digest
of the encoding of (unsigned, chain id, signature); on divergence it fails
with `TxHashMismatch` carrying the claimed and the computed hash; a
transaction whose hash field was produced by hashing its own fields
(`calc_hash`) is accepted. Any mutation that changes the computed hash is
thereby rejected. -/
theorem check_hash_spec (cm : CryptoModel) (utx : UnverifiedTransaction) :
    (utx.check_hash cm = .ok () ↔
      utx.hash = cm.digest (cm.encodeTx utx.unsigned utx.chain_id utx.signature)) ∧
    (utx.hash ≠ utx.get_hash cm →
      utx.check_hash cm = .error (.TxHashMismatch utx.hash (utx.get_hash cm))) ∧
    (utx.calc_hash cm).check_hash cm = .ok () := by
  refine ⟨?_, ?_, ?_⟩
  · unfold UnverifiedTransaction.check_hash UnverifiedTransaction.get_hash
    by_cases h : utx.hash = cm.digest (cm.encodeTx utx.unsigned utx.chain_id utx.signature) <;>
      simp [h]
  · intro h
    unfold UnverifiedTransaction.check_hash
    simp [h]
  · unfold UnverifiedTransaction.check_hash UnverifiedTransaction.calc_hash
      UnverifiedTransaction.get_hash
    simp

/-- A concrete instantiation of the external crypto collaborators, used by
witnesses: digest takes the first 32 bytes, encoding serializes the chain id
and the signature's r component, recovery always yields a constant key, and
interoperation payloads decode to themselves. -/
def cm0 : CryptoModel :=
  { digest := fun b => b.take 32
    encodeTx := fun _ cid sigO =>
      [cid.getD 0] ++ (match sigO with | some s => s.r | none => [])
    encodeLegacyReduced := fun _ => []
    recoverRaw := fun _ _ => some (List.replicate 65 7)
    decodeCellDep := fun b => some ⟨b⟩ }

/-- A transaction whose stored hash diverges from its computed hash. -/
def utxBadHash : UnverifiedTransaction :=
  { unsigned := UnsignedTransaction.Eip1559 fixtureEip1559,
    signature := none, chain_id := none, hash := [9] }

/-- C6 witness: at the concrete model `cm0`, the diverging transaction is
rejected with the mismatch error carrying both hashes. -/
theorem check_hash_spec_witness :
    utxBadHash.check_hash cm0 = .error (.TxHashMismatch [9] [0]) :=
  (check_hash_spec cm0 utxBadHash).2.1 (by decide)

/-- C7: `from_unverified` fails with the `Unsigned` error when there is no
signature; for a 65-byte signature it recovers a public key by ECDSA over
`signature_hash` and derives the sender as the last 20 bytes (drop 12 of 32)
of that key's digest; for a non-65-byte signature whose first `r` byte is 0
it decodes an embedded public key from the remainder of `r` and sets the
sender to the last 20 bytes of the embedded key's digest; any non-65-byte
signature whose first `r` byte is nonzero fails with
`InvalidSignatureRType`. -/
theorem from_unverified_spec (cm : CryptoModel) (utx : UnverifiedTransaction) :
    (utx.signature = none →
      SignedTransaction.from_unverified cm utx = some (.error .Unsigned)) ∧
    (∀ sig ser, utx.signature = some sig → sig.len = 65 →
      cm.recoverRaw (utx.signature_hash cm true) sig.as_bytes = some ser →
      SignedTransaction.from_unverified cm utx =
        some (.ok { transaction := utx.calc_hash cm,
                    sender := (cm.digest ((ser.drop 1).take 64)).drop 12,
                    public := some ((ser.drop 1).take 64) })) ∧
    (∀ sig rest cdp, utx.signature = some sig → sig.len ≠ 65 → sig.r = 0 :: rest →
      cm.decodeCellDep rest = some cdp →
      SignedTransaction.from_unverified cm utx =
        some (.ok { transaction := utx.calc_hash cm,
                    sender := (cm.digest cdp.pub_key).drop 12,
                    public := some publicZero })) ∧
    (∀ sig b rest, utx.signature = some sig → sig.len ≠ 65 → sig.r = b :: rest → b ≠ 0 →
      SignedTransaction.from_unverified cm utx = some (.error .InvalidSignatureRType)) := by
  refine ⟨?_, ?_, ?_, ?_⟩
  · intro h
    unfold SignedTransaction.from_unverified
    rw [h]
  · intro sig ser hsig h65 hrec
    unfold SignedTransaction.from_unverified
    rw [hsig]
    simp [SignatureComponents.is_eth_sig, h65, hrec, public_to_address]
  · intro sig rest cdp hsig h65 hr hdec
    unfold SignedTransaction.from_unverified extract_interoperation_tx_sender
    rw [hsig]
    simp [SignatureComponents.is_eth_sig, h65, hr, hdec]
  · intro sig b rest hsig h65 hr hb
    unfold SignedTransaction.from_unverified extract_interoperation_tx_sender
    rw [hsig]
    simp [SignatureComponents.is_eth_sig, h65, hr, hb]

/-- A 65-byte eth-style signature (32-byte r, 32-byte s). -/
def sigEth : SignatureComponents :=
  { r := List.replicate 32 1, s := List.replicate 32 2, standard_v := 0 }

/-- An interoperation signature: first `r` byte 0, embedded payload after. -/
def sigInterop : SignatureComponents :=
  { r := [0, 5, 5], s := [], standard_v := 0 }

/-- A malformed signature: non-65-byte with nonzero first `r` byte. -/
def sigBadType : SignatureComponents :=
  { r := [3, 5], s := [], standard_v := 0 }

/-- C7 witness: the four recovery scenarios at the concrete model `cm0`. -/
theorem from_unverified_spec_witness :
    SignedTransaction.from_unverified cm0 fixtureUtx = some (.error .Unsigned) ∧
    SignedTransaction.from_unverified cm0 { fixtureUtx with signature := some sigEth } =
      some (.ok { transaction := ({ fixtureUtx with signature := some sigEth }).calc_hash cm0,
                  sender := (cm0.digest ((List.replicate 65 7).drop 1 |>.take 64)).drop 12,
                  public := some ((List.replicate 65 7).drop 1 |>.take 64) }) ∧
    SignedTransaction.from_unverified cm0 { fixtureUtx with signature := some sigInterop } =
      some (.ok { transaction := ({ fixtureUtx with signature := some sigInterop }).calc_hash cm0,
                  sender := (cm0.digest [5, 5]).drop 12,
                  public := some publicZero }) ∧
    SignedTransaction.from_unverified cm0 { fixtureUtx with signature := some sigBadType } =
      some (.error .InvalidSignatureRType) :=
  ⟨(from_unverified_spec cm0 fixtureUtx).1 rfl,
   (from_unverified_spec cm0 _).2.1 sigEth (List.replicate 65 7) rfl (by decide) rfl,
   (from_unverified_spec cm0 _).2.2.1 sigInterop [5, 5] ⟨[5, 5]⟩ rfl (by decide) rfl rfl,
   (from_unverified_spec cm0 _).2.2.2 sigBadType 3 [5] rfl (by decide) rfl (by decide)⟩

/-- Helper: a credit list whose amounts are all zero leaves the state
untouched and emits no credit events. -/
theorem applyCredits_all_zero (credits : List FeeInlet) (st : AdapterState)
    (hz : ∀ c ∈ credits, c.amount = 0) : applyCredits credits st = some (st, []) := by
  induction credits with
  | nil => rfl
  | cons c rest ih =>
    have hc : c.amount = 0 := hz c (by simp)
    rw [applyCredits, if_pos hc]
    exact ih fun c' hc' => hz c' (by simp [hc'])

/-- C3: `exec` over an empty transaction list succeeds, returns the canonical
empty-trie constant `RLP_NULL` as receipts root, performs no fee credit,
still invokes both block hooks, and commits exactly once. The hypothesis is
the spec-level contract of the (absent from src) fee allocator: zero collected
fee yields only zero-amount credits. -/
theorem exec_empty_txs (env : ExecEnv) (st : AdapterState)
    (validators : List ValidatorExtend)
    (hz : ∀ n p v, ∀ c ∈ env.allocator n 0 p v, c.amount = 0) :
    ∃ resp stF evs, exec env st [] validators = some (resp, stF, evs) ∧
      resp.receipt_root = RLP_NULL ∧
      (∀ a m, Event.feeCredit a m ∉ evs) ∧
      Event.beforeHook ∈ evs ∧ Event.afterHook ∈ evs ∧
      evs.count Event.commit = 1 := by
  by_cases hbn : st.blockNumber = 0
  · have hexec : exec env st [] validators =
        some (⟨env.commitRoot (env.afterHook (env.beforeHook st)), RLP_NULL, 0, []⟩,
              env.afterHook (env.beforeHook st),
              [Event.beforeHook, Event.afterHook, Event.commit]) := by
      simp [exec, execLoop, hbn]
    refine ⟨_, _, _, hexec, rfl, ?_, ?_, ?_, ?_⟩
    · intro a m
      simp
    · simp
    · simp
    · simp [List.count_cons]
  · have hcred :
        applyCredits (env.allocator st.blockNumber 0 (env.beforeHook st).origin validators)
          (env.beforeHook st) = some (env.beforeHook st, []) :=
      applyCredits_all_zero _ _ (hz st.blockNumber (env.beforeHook st).origin validators)
    have hexec : exec env st [] validators =
        some (⟨env.commitRoot (env.afterHook (env.beforeHook st)), RLP_NULL, 0, []⟩,
              env.afterHook (env.beforeHook st),
              [Event.beforeHook,
               Event.feeAllocate st.blockNumber 0 (env.beforeHook st).origin validators,
               Event.afterHook, Event.commit]) := by
      simp [exec, execLoop, hbn, hcred]
    refine ⟨_, _, _, hexec, rfl, ?_, ?_, ?_, ?_⟩
    · intro a m
      simp
    · simp
    · simp
    · simp [List.count_cons]

/-- A trivial instantiation of the executor's external collaborators, used by
witnesses: no system contract, an EVM that reverts with no effect, identity
hooks, an empty fee allocation, and constant roots. -/
def env0 : ExecEnv :=
  { dispatch := fun _ _ => none
    run := fun _ _ => { exit := .Revert, ret := [], remainedGas := 0, usedGas := 0, diff := id }
    beforeHook := id
    afterHook := id
    allocator := fun _ _ _ _ => []
    commitRoot := fun _ => []
    receiptsRoot := fun _ => []
    bloomOf := fun _ => []
    codeAddr := fun _ _ => [] }

/-- A small concrete starting state at a nonzero block number. -/
def st0 : AdapterState :=
  { accounts := fun _ => ⟨0, 0⟩, gasPrice := 0, origin := [], logs := [],
    blockNumber := 5 }

/-- C3 witness: the empty-list run at the concrete environment `env0`. -/
theorem exec_empty_txs_witness :
    ∃ resp stF evs, exec env0 st0 [] [] = some (resp, stF, evs) ∧
      resp.receipt_root = RLP_NULL ∧
      (∀ a m, Event.feeCredit a m ∉ evs) ∧
      Event.beforeHook ∈ evs ∧ Event.afterHook ∈ evs ∧
      evs.count Event.commit = 1 :=
  exec_empty_txs env0 st0 []
    (by intro n p v c hc; simp [env0] at hc)

/-- A state in which every account balance sits at `U256::max_value()`. -/
def stMaxBal : AdapterState :=
  { accounts := fun _ => ⟨0, u256Max⟩, gasPrice := 0, origin := [], logs := [],
    blockNumber := 1 }

/-- C4 counterexample: crediting 1 to an account whose balance is the maximum
U256 value panics (`+=` overflow, modelled `none`) instead of saturating: the
outcome the claim predicts (the account saved with a saturated balance) is
not produced. -/
theorem fee_credit_overflow_panics :
    applyCredits [⟨[1], 1⟩] stMaxBal = none ∧
    applyCredits [⟨[1], 1⟩] stMaxBal ≠
      some (saveAccount stMaxBal [1] ⟨0, min (u256Max + 1) u256Max⟩,
            [Event.feeCredit [1] 1]) := by
  have h : applyCredits [⟨[1], 1⟩] stMaxBal = none := by
    rw [applyCredits, if_neg (by decide)]
    have hov : checkedAdd256 (stMaxBal.accounts [1]).balance 1 = none := by
      unfold checkedAdd256 stMaxBal u256Max U256_MOD
      norm_num
    simp only [hov]
  exact ⟨h, by rw [h]; exact fun hc => Option.noConfusion hc⟩

/-- C4 (amended): fee distribution is skipped entirely (no allocator call, no
credit) when the block number is zero; when it is nonzero, the allocator is
called with (block number, collected fee, current origin, validators); every
credit with nonzero amount loads the target account, adds the amount to its
balance with the plain `U256` addition (exact when the sum fits 256 bits,
a panic otherwise — not saturating), and saves it; zero-amount credits leave
the account untouched. -/
theorem exec_fee_allocation_spec (env : ExecEnv) (st : AdapterState)
    (txs : List SignedTransaction) (validators : List ValidatorExtend) :
    (st.blockNumber = 0 →
      ∃ resp stF, exec env st txs validators =
        some (resp, stF, [Event.beforeHook, Event.afterHook, Event.commit])) ∧
    (st.blockNumber ≠ 0 → ∀ resp stF evs,
      exec env st txs validators = some (resp, stF, evs) →
      Event.feeAllocate st.blockNumber (execLoop env st txs).fee
        (execLoop env st txs).st.origin validators ∈ evs) ∧
    (∀ (a : Addr) (rest : List FeeInlet) (st' : AdapterState),
      applyCredits (⟨a, 0⟩ :: rest) st' = applyCredits rest st') ∧
    (∀ (a : Addr) (amt : Nat) (rest : List FeeInlet) (st' : AdapterState),
      amt ≠ 0 → (st'.accounts a).balance + amt < U256_MOD →
      applyCredits (⟨a, amt⟩ :: rest) st' =
        (applyCredits rest
          (saveAccount st' a ⟨(st'.accounts a).nonce, (st'.accounts a).balance + amt⟩)).map
          (fun p => (p.1, Event.feeCredit a amt :: p.2))) ∧
    (∀ (a : Addr) (amt : Nat) (rest : List FeeInlet) (st' : AdapterState),
      amt ≠ 0 → ¬ (st'.accounts a).balance + amt < U256_MOD →
      applyCredits (⟨a, amt⟩ :: rest) st' = none) := by
  refine ⟨?_, ?_, ?_, ?_, ?_⟩
  · intro hbn
    refine ⟨⟨env.commitRoot (env.afterHook (execLoop env st txs).st),
            if (execLoop env st txs).receipts.isEmpty then RLP_NULL
            else env.receiptsRoot (execLoop env st txs).receipts,
            (execLoop env st txs).gas, (execLoop env st txs).resps⟩,
          env.afterHook (execLoop env st txs).st, ?_⟩
    simp [exec, hbn]
  · intro hbn resp stF evs heq
    simp only [exec] at heq
    rw [if_neg hbn] at heq
    rcases hc : applyCredits (env.allocator st.blockNumber (execLoop env st txs).fee
        (execLoop env st txs).st.origin validators) (execLoop env st txs).st with
      _ | ⟨st', evs'⟩
    · rw [hc] at heq
      exact absurd heq (by simp)
    · rw [hc] at heq
      simp only [Option.some.injEq] at heq
      obtain ⟨-, -, rfl⟩ := heq
      simp
  · intro a rest st'
    rw [applyCredits, if_pos rfl]
  · intro a amt rest st' hamt hlt
    rw [applyCredits, if_neg hamt]
    dsimp only
    have hadd : checkedAdd256 (st'.accounts a).balance amt =
        some ((st'.accounts a).balance + amt) := by
      unfold checkedAdd256
      rw [if_pos hlt]
    rw [hadd]
    rcases h : applyCredits rest
        (saveAccount st' a ⟨(st'.accounts a).nonce, (st'.accounts a).balance + amt⟩) with
      _ | ⟨st2, evs2⟩ <;> simp [h]
  · intro a amt rest st' hamt hlt
    rw [applyCredits, if_neg hamt]
    dsimp only
    have hadd : checkedAdd256 (st'.accounts a).balance amt = none := by
      unfold checkedAdd256
      rw [if_neg hlt]
    rw [hadd]

/-- C4 witness: at a concrete state, the genesis block skips the fee stage,
the nonzero block emits the allocator call, a zero credit is skipped, a
nonzero credit updates the balance exactly, and an overflowing credit
panics. -/
theorem exec_fee_allocation_spec_witness :
    (∃ resp stF, exec env0 { st0 with blockNumber := 0 } [] [] =
      some (resp, stF, [Event.beforeHook, Event.afterHook, Event.commit])) ∧
    applyCredits [⟨[2], 0⟩] st0 = applyCredits [] st0 ∧
    applyCredits [⟨[2], 7⟩] st0 =
      (applyCredits [] (saveAccount st0 [2] ⟨0, 7⟩)).map
        (fun p => (p.1, Event.feeCredit [2] 7 :: p.2)) ∧
    applyCredits [⟨[1], 1⟩] stMaxBal = none :=
  ⟨(exec_fee_allocation_spec env0 { st0 with blockNumber := 0 } [] []).1 rfl,
   (exec_fee_allocation_spec env0 st0 [] []).2.2.1 [2] [] st0,
   (exec_fee_allocation_spec env0 st0 [] []).2.2.2.1 [2] 7 [] st0 (by decide)
     (by norm_num [st0, U256_MOD]),
   (exec_fee_allocation_spec env0 st0 [] []).2.2.2.2 [1] 1 [] stMaxBal (by decide)
     (by norm_num [stMaxBal, u256Max, U256_MOD])⟩

/-- The executor environment for the gas-wrap run: a system contract claims
every transaction and reports 2^63 gas used and the maximum fee cost. -/
def env10 : ExecEnv :=
  { env0 with
    dispatch := fun st _ =>
      some (⟨.Succeed .Stopped, [], 2 ^ 63, 0, u256Max, [], none, false⟩, st) }

/-- C10: the block-level total gas wraps modulo 2^64: two transactions whose
gas_used values sum to 2^64 (beyond 2^64-1) yield a returned total of 0, the
wrapped sum, not the clamped maximum — while the running fee total of the
same run clamps at the maximum U256 value. -/
theorem exec_gas_wraps :
    2 ^ 64 - 1 < 2 ^ 63 + 2 ^ 63 ∧
    (2 ^ 63 + 2 ^ 63) % 2 ^ 64 = 0 ∧
    (exec env10 { st0 with blockNumber := 0 } [fixtureTx, fixtureTx] []).map
      (fun x => x.1.gas_used) = some 0 ∧
    (0 : Nat) ≠ min (2 ^ 63 + 2 ^ 63) (2 ^ 64 - 1) ∧
    (execLoop env10 { st0 with blockNumber := 0 } [fixtureTx, fixtureTx]).fee = u256Max := by
  refine ⟨by norm_num, by norm_num, ?_, by norm_num, ?_⟩ <;> rfl

end Axon
